import Mathlib

/-!
Verification development for the pyro build orchestrator.

Shallow embedding of the relevant parts of the sources:
  * `Application.run` post-compile orchestration (Application.py and the
    duplicated copy in __main__.py), modelled as a pure function from the
    relevant project options and the compile counts to the list of observable
    events (downstream stage invocations, warnings, report lines).
  * `ProjectBase.get_worker_limit` (ProjectBase.py).
  * `RemoteBase.validate_url`, `GenericRemote.fetch_contents` dispatch, and
    the request traces of `BitbucketRemote._fetch_payloads`,
    `BitbucketRemote.fetch_contents`, `GitHubRemote.fetch_contents`
    (Remotes.py), over an embedding of CPython `urllib.parse.urlparse`.
  * Spec-modelled build planner (incremental filter) and module-header codec
    (anonymize), whose implementing modules are not among the sources.
-/

/-- The subset of `ProjectOptions` fields consulted by `Application.run`
after `try_compile` returns: the `anonymize`, `package` and `zip` stage
toggles and the `ignore_errors` policy flag. -/
structure ProjectOptions where
  anonymize : Bool
  package : Bool
  zip : Bool
  ignore_errors : Bool
deriving DecidableEq

/-- Observable events of the post-compile tail of `Application.run`:
downstream stage invocations on the `BuildFacade`, the warnings logged in
their place, the call to `TimeElapsed.average`, and the final report line. -/
inductive RunEvent where
  | tryAnonymize
  | warnAnonymizeFailed (failed : Nat)
  | warnAnonymizeDisabled
  | tryPack
  | warnPackageFailed (failed : Nat)
  | warnPackageDisabled
  | tryZip
  | warnZipFailed (failed : Nat)
  | warnZipDisabled
  | averageCall (success : Nat)
  | reportCounts (success failed scripts : Nat)
  | reportNoScripts
  | reportDone
deriving DecidableEq

/-- Embedding of `Application.run` (Application.py, lines 111-150) from the
point where `build.try_compile` has returned `(success_count, failed_count)`:
the sequence of stage invocations, warnings and report events it produces.
`psc_count` is `len(ppj.psc_paths)`. -/
def application_run_events (o : ProjectOptions) (success_count failed_count psc_count : Nat) :
    List RunEvent :=
  (if o.anonymize = true then
     (if failed_count = 0 ∨ o.ignore_errors = true then [RunEvent.tryAnonymize]
      else [RunEvent.warnAnonymizeFailed failed_count])
   else [RunEvent.warnAnonymizeDisabled]) ++
  (if o.package = true then
     (if failed_count = 0 ∨ o.ignore_errors = true then [RunEvent.tryPack]
      else [RunEvent.warnPackageFailed failed_count])
   else [RunEvent.warnPackageDisabled]) ++
  (if o.zip = true then
     (if failed_count = 0 ∨ o.ignore_errors = true then [RunEvent.tryZip]
      else [RunEvent.warnZipFailed failed_count])
   else [RunEvent.warnZipDisabled]) ++
  (if success_count > 0 then
     [RunEvent.averageCall success_count,
      RunEvent.reportCounts success_count failed_count psc_count]
   else [RunEvent.reportNoScripts]) ++
  [RunEvent.reportDone]

/-- Embedding of the duplicated `Application.run` (__main__.py, lines
97-137) from the point where `build.try_compile` has returned
`(success_count, failed_count)`. Translated from that file independently of
`application_run_events`. -/
def main_run_events (o : ProjectOptions) (success_count failed_count psc_count : Nat) :
    List RunEvent :=
  (if o.anonymize = true then
     (if failed_count = 0 ∨ o.ignore_errors = true then [RunEvent.tryAnonymize]
      else [RunEvent.warnAnonymizeFailed failed_count])
   else [RunEvent.warnAnonymizeDisabled]) ++
  (if o.package = true then
     (if failed_count = 0 ∨ o.ignore_errors = true then [RunEvent.tryPack]
      else [RunEvent.warnPackageFailed failed_count])
   else [RunEvent.warnPackageDisabled]) ++
  (if o.zip = true then
     (if failed_count = 0 ∨ o.ignore_errors = true then [RunEvent.tryZip]
      else [RunEvent.warnZipFailed failed_count])
   else [RunEvent.warnZipDisabled]) ++
  (if success_count > 0 then
     [RunEvent.averageCall success_count,
      RunEvent.reportCounts success_count failed_count psc_count]
   else [RunEvent.reportNoScripts]) ++
  [RunEvent.reportDone]

/-- Embedding of `ProjectBase.get_worker_limit` (ProjectBase.py, lines
83-98). `worker_limit` is `self.options.worker_limit`; `cpu_count` is the
result of `os.cpu_count()`, which is `None` when the processor count is
indeterminate (the code then raises `ValueError`, catches it, and returns
2). -/
def get_worker_limit (worker_limit : Int) (cpu_count : Option Nat) : Int :=
  if worker_limit > 0 then worker_limit
  else
    match cpu_count with
    | none => 2
    | some n => (n : Int)

/-- Modelled from the spec: the `BuildPlanner` component (the `BuildFacade`
module implementing discovery and the incremental filter) is not among the
sources; this follows spec section 4.1. A `SourceUnit` is one script source
with its source modification timestamp and the resolved output module's
timestamp, absent if never built. -/
structure SourceUnit where
  unitPath : String
  sourceTime : Nat
  outputTime : Option Nat
deriving DecidableEq

/-- Modelled from the spec: the `BuildPlanner` executability test of spec
section 4.1 — with `incremental` false every discovered unit is executable;
with `incremental` true a unit is executable iff its output module is
missing or its source timestamp is strictly greater than the output
timestamp. -/
def unit_executable (incremental : Bool) (u : SourceUnit) : Bool :=
  if incremental then
    match u.outputTime with
    | none => true
    | some t => decide (t < u.sourceTime)
  else true

/-- Modelled from the spec: the executable subset of the build plan, the
discovered units filtered by `unit_executable` in discovery order (spec
section 4.1). -/
def plan_executable (incremental : Bool) (units : List SourceUnit) : List SourceUnit :=
  units.filter (unit_executable incremental)

/-- Modelled from the spec: the `ModuleHeader` entity of spec section 3 —
the `BytecodeHeaderCodec` (`PexReader`) module is not among the sources.
Magic/version tag, source-language version pair, source path, the two
free-form identity strings, build timestamp, and the opaque trailing
payload. -/
structure ModuleHeader where
  magic : Nat
  majorVersion : Nat
  minorVersion : Nat
  sourcePath : String
  authorIdentity : String
  machineIdentity : String
  buildTime : Nat
  payload : List Nat
deriving DecidableEq

/-- Modelled from the spec: `anonymize` of spec section 4.4 — rewrites the
author-identity and machine-identity fields to empty, leaving every other
field untouched. -/
def anonymize_header (h : ModuleHeader) : ModuleHeader :=
  { h with authorIdentity := "", machineIdentity := "" }

/-- Modelled from the spec: on-disk encoding of a variable-length string
field, a length prefix followed by the content bytes (spec section 3). -/
def encode_string_field (s : String) : List Nat :=
  s.toList.length :: s.toList.map Char.toNat

/-- Modelled from the spec: on-disk encoding of the module file, the fixed
prologue fields in order followed by the opaque payload bytes (spec
sections 3 and 4.4). -/
def encode_header (h : ModuleHeader) : List Nat :=
  [h.magic, h.majorVersion, h.minorVersion] ++
  encode_string_field h.sourcePath ++
  encode_string_field h.authorIdentity ++
  encode_string_field h.machineIdentity ++
  [h.buildTime] ++ h.payload

/-- The characters CPython `urllib.parse` accepts inside a URL scheme:
ASCII letters, digits, and the three marks `+`, `-`, `.`. -/
def scheme_chars : List Char :=
  "abcdefghijklmnopqrstuvwxyzABCDEFGHIJKLMNOPQRSTUVWXYZ0123456789+-.".toList

/-- Result record of `urllib.parse.urlparse`: the six named components. -/
structure ParseResult where
  scheme : String
  netloc : String
  path : String
  params : String
  query : String
  fragment : String
deriving DecidableEq

/-- Split a character list at the first occurrence of `c`, dropping the
occurrence itself, as Python `str.split(c, 1)` does; `none` if absent. -/
def splitAtFirst (c : Char) (l : List Char) : Option (List Char × List Char) :=
  match l.findIdx? (fun d => d == c) with
  | none => none
  | some i => (l.take i, l.drop (i + 1))

/-- WHATWG leading strip performed by CPython `urlsplit`: drop leading C0
control characters and spaces (code points up to U+0020). -/
def lstrip_control_or_space (l : List Char) : List Char :=
  l.dropWhile (fun c => c.toNat ≤ 32)

/-- CPython `urlsplit` removes every tab, carriage return and line feed
from the URL before parsing. -/
def remove_unsafe_bytes (l : List Char) : List Char :=
  l.filter (fun c => !(c == '\t' || c == '\r' || c == '\n'))

/-- Scheme detection of CPython `urlsplit`: if the first `:` sits at a
positive index, the first character is an ASCII letter, and everything
before the `:` is a scheme character, the scheme is that prefix lowercased
and the remainder follows the `:`; otherwise the scheme is empty and the
URL is left whole. -/
def split_scheme (l : List Char) : List Char × List Char :=
  match l.findIdx? (fun d => d == ':') with
  | none => ([], l)
  | some i =>
    if 0 < i ∧ (l.headD ' ').isAlpha = true ∧
        (l.take i).all (fun c => scheme_chars.contains c) = true then
      ((l.take i).map Char.toLower, l.drop (i + 1))
    else ([], l)

/-- Netloc split of CPython `_splitnetloc`: the netloc runs from after the
leading `//` to the first of `/`, `?` or `#`; the rest of the URL starts at
that delimiter. -/
def split_netloc (l : List Char) : List Char × List Char :=
  (l.takeWhile (fun c => !(c == '/' || c == '?' || c == '#')),
   l.dropWhile (fun c => !(c == '/' || c == '?' || c == '#')))

/-- Fragment then query split of CPython `urlsplit` (fragments allowed):
everything after the first `#` is the fragment; in what precedes it,
everything after the first `?` is the query. Returns (path, query,
fragment). -/
def split_fragment_query (l : List Char) : List Char × List Char × List Char :=
  let fsplit := match splitAtFirst '#' l with
                | some p => p
                | none => (l, [])
  let qsplit := match splitAtFirst '?' fsplit.1 with
                | some p => p
                | none => (fsplit.1, [])
  (qsplit.1, qsplit.2, fsplit.2)

/-- Embedding of CPython `urllib.parse.urlsplit` (as used by `urlparse` in
Remotes.py): strip leading control/space characters, remove tab/CR/LF,
detect the scheme, split off the netloc after `//` — raising
`ValueError("Invalid IPv6 URL")` when the netloc contains an unmatched
square bracket — then split fragment and query. The NFKC netloc check and
the newest bracketed-host validation, which concern only non-ASCII or
bracketed hosts, are not modelled; no claim below depends on them. -/
def urlsplit (s : String) : Except String ParseResult :=
  let url0 := remove_unsafe_bytes (lstrip_control_or_space s.toList)
  let sp := split_scheme url0
  match sp.2 with
  | '/' :: '/' :: rest =>
    let np := split_netloc rest
    if (np.1.contains '[' && !(np.1.contains ']')) ||
        (np.1.contains ']' && !(np.1.contains '[')) then
      Except.error "Invalid IPv6 URL"
    else
      let fq := split_fragment_query np.2
      Except.ok ⟨sp.1.asString, np.1.asString, fq.1.asString, "",
                 fq.2.1.asString, fq.2.2.asString⟩
  | other =>
    let fq := split_fragment_query other
    Except.ok ⟨sp.1.asString, "", fq.1.asString, "",
               fq.2.1.asString, fq.2.2.asString⟩

/-- The schemes for which CPython `urlparse` splits parameters off the last
path segment. -/
def uses_params : List String :=
  ["", "ftp", "hdl", "prospero", "http", "imap", "https", "shttp", "rtsp",
   "rtsps", "rtspu", "sip", "sips", "mms", "sftp", "tel"]

/-- Index of the last `/` in `l` (callers guarantee one exists; 0
otherwise), as Python `str.rfind('/')`. -/
def rfind_slash (l : List Char) : Nat :=
  match l.reverse.findIdx? (fun d => d == '/') with
  | none => 0
  | some k => l.length - 1 - k

/-- First index of `c` at or after `start`, as Python `str.find(c, start)`. -/
def find_from (c : Char) (start : Nat) (l : List Char) : Option Nat :=
  match (l.drop start).findIdx? (fun d => d == c) with
  | none => none
  | some k => some (start + k)

/-- CPython `_splitparams`: when the path contains a `/`, parameters are
split at the first `;` in the last segment (none: path unchanged);
otherwise at the first `;` of the whole path. -/
def splitparams (l : List Char) : List Char × List Char :=
  if l.contains '/' = true then
    match find_from ';' (rfind_slash l) l with
    | none => (l, [])
    | some i => (l.take i, l.drop (i + 1))
  else
    match l.findIdx? (fun d => d == ';') with
    | none => (l, [])
    | some i => (l.take i, l.drop (i + 1))

/-- Embedding of CPython `urllib.parse.urlparse`: `urlsplit`, then, for
schemes in `uses_params` whose path contains a `;`, the parameter split. -/
def urlparse (s : String) : Except String ParseResult :=
  match urlsplit s with
  | Except.error e => Except.error e
  | Except.ok r =>
    if uses_params.contains r.scheme && r.path.toList.contains ';' then
      let pp := splitparams r.path.toList
      Except.ok { r with path := pp.1.asString, params := pp.2.asString }
    else
      Except.ok r

/-- Python `str.endswith`, over the character lists of the strings. -/
def str_endswith (s suffix : String) : Bool :=
  suffix.toList.isSuffixOf s.toList

/-- Embedding of `RemoteBase.validate_url` (Remotes.py, lines 80-90):
parse the URL and test that scheme, netloc and path are all non-empty
(Python `all` on string truthiness). The `except HTTPError` clause catches
only `HTTPError`, which `urlparse` never raises; an error raised by
`urlparse` therefore propagates, modelled by `Except.error`. -/
def validate_url (url : String) : Except String Bool :=
  match urlparse url with
  | Except.error e => Except.error e
  | Except.ok r =>
    Except.ok (!r.scheme.isEmpty && !r.netloc.isEmpty && !r.path.isEmpty)

/-- Outcome of the host dispatch in `GenericRemote.fetch_contents`:
which provider variant is delegated to, or which exception is raised when
the generator runs. -/
inductive FetchDispatch where
  | permissionError
  | delegateGitHub
  | delegateBitbucket
  | notImplementedError
  | parseError (e : String)
deriving DecidableEq

/-- Embedding of the host dispatch of `GenericRemote.fetch_contents`
(Remotes.py, lines 100-115): parse the URL; netlocs ending in `github.com`
require a non-empty access token (else `PermissionError`) and delegate to
`GitHubRemote`; netlocs ending in `bitbucket.org` delegate to
`BitbucketRemote`; anything else raises `NotImplementedError`.
`access_token` is `self.options.access_token`, empty when unconfigured. -/
def generic_fetch_contents (access_token : String) (url : String) : FetchDispatch :=
  match urlparse url with
  | Except.error e => FetchDispatch.parseError e
  | Except.ok r =>
    if str_endswith r.netloc "github.com" = true then
      if access_token.isEmpty = true then FetchDispatch.permissionError
      else FetchDispatch.delegateGitHub
    else if str_endswith r.netloc "bitbucket.org" = true then
      FetchDispatch.delegateBitbucket
    else
      FetchDispatch.notImplementedError

deriving instance DecidableEq for Except

/-- Case-insensitive suffix test, modelling `Comparators.endswith` with
`ignorecase=True` as used in Remotes.py (the Comparators module itself is
not among the sources): lowercase both strings and compare suffixes. -/
def endswith_ignorecase (s suffix : String) : Bool :=
  (suffix.toList.map Char.toLower).isSuffixOf (s.toList.map Char.toLower)

/-- One network request opened via `urlopen`: the URL it is opened on and
the `timeout` keyword argument passed. -/
structure NetRequest where
  requestUrl : String
  timeout : Nat
deriving DecidableEq

/-- One element of a Bitbucket `payload['values']` list: its `type`,
`path` and `links.self.href` fields. -/
structure BBPayloadObject where
  otype : String
  opath : String
  href : String
deriving DecidableEq

/-- One Bitbucket payload: the `values` list and the optional `next`
pagination URL. -/
structure BBPayload where
  values : List BBPayloadObject
  next : Option String
deriving DecidableEq

/-- One element of a GitHub contents payload: its `path`, `download_url`
(absent for folders) and `url` fields. -/
structure GHPayloadObject where
  opath : String
  downloadUrl : Option String
  objUrl : String
deriving DecidableEq

/-- Abstract network and collaborator environment for the remote-fetch
functions: the HTTP status `urlopen` observes per request URL, the decoded
payloads per URL, and the request URL computed by
`RemoteBase.extract_request_args` (abstracted as an arbitrary function —
the request-trace theorems below hold for every URL computation). -/
structure RemoteEnv where
  status : String → Nat
  bbPayloadOf : String → BBPayload
  ghPayloadOf : String → List GHPayloadObject
  extractReqUrl : String → String

/-- Requests opened by `BitbucketRemote._fetch_payloads` (Remotes.py,
lines 119-136): `urlopen(request, timeout=30)` on `request_url`; when the
status is 200 and the payload carries a `next` URL, the function recurses
on it. `fuel` bounds the pagination depth; the theorems below quantify
over every `fuel`. -/
def fetch_payloads_requests (env : RemoteEnv) : Nat → String → List NetRequest
  | 0, _ => []
  | fuel + 1, request_url =>
    ⟨request_url, 30⟩ ::
      (if env.status request_url ≠ 200 then []
       else
         match (env.bbPayloadOf request_url).next with
         | some nextUrl => fetch_payloads_requests env fuel nextUrl
         | none => [])

/-- Payloads yielded by `BitbucketRemote._fetch_payloads`: on status 200
the decoded payload, then the payloads of the `next` page when present. -/
def fetch_payloads_values (env : RemoteEnv) : Nat → String → List BBPayload
  | 0, _ => []
  | fuel + 1, request_url =>
    if env.status request_url ≠ 200 then []
    else
      env.bbPayloadOf request_url ::
        (match (env.bbPayloadOf request_url).next with
         | some nextUrl => fetch_payloads_values env fuel nextUrl
         | none => [])

/-- Requests opened by `BitbucketRemote.fetch_contents` (Remotes.py, lines
138-178): those of `_fetch_payloads(request_url)`, plus, for every
`commit_file` object whose download URL ends in `.psc` (ignoring case),
`urlopen(download_url, timeout=30)`; `commit_directory` objects recurse on
their download URL. -/
def bitbucket_fetch_contents_requests (env : RemoteEnv) : Nat → String → List NetRequest
  | 0, _ => []
  | fuel + 1, url =>
    let request_url := env.extractReqUrl url
    fetch_payloads_requests env (fuel + 1) request_url ++
      (fetch_payloads_values env (fuel + 1) request_url).flatMap (fun payload =>
        payload.values.flatMap (fun obj =>
          if obj.otype = "commit_file" then
            if endswith_ignorecase obj.href ".psc" = true then [⟨obj.href, 30⟩]
            else []
          else if obj.otype = "commit_directory" then
            bitbucket_fetch_contents_requests env fuel obj.href
          else []))

/-- Requests opened by `GitHubRemote.fetch_contents` (Remotes.py, lines
182-230): `urlopen(request, timeout=30)` on `request_url`; on status 200,
for every payload object without a download URL the function recurses on
its `url`, and for every download URL ending in `.psc` (ignoring case) it
opens `urlopen(download_url, timeout=30)`. -/
def github_fetch_contents_requests (env : RemoteEnv) : Nat → String → List NetRequest
  | 0, _ => []
  | fuel + 1, url =>
    let request_url := env.extractReqUrl url
    ⟨request_url, 30⟩ ::
      (if env.status request_url ≠ 200 then []
       else
         (env.ghPayloadOf request_url).flatMap (fun obj =>
           match obj.downloadUrl with
           | none => github_fetch_contents_requests env fuel obj.objUrl
           | some dl =>
             if dl = "" then github_fetch_contents_requests env fuel obj.objUrl
             else if endswith_ignorecase dl ".psc" = true then [⟨dl, 30⟩]
             else []))

/-- A concrete environment: every request succeeds with status 200, the
Bitbucket payload holds one `.psc` commit file, the GitHub payload one
`.psc` download, and the request URL is the URL itself. -/
def sampleRemoteEnv : RemoteEnv where
  status := fun _ => 200
  bbPayloadOf := fun _ =>
    ⟨[⟨"commit_file", "x.psc", "https://api.bitbucket.org/x.psc"⟩], none⟩
  ghPayloadOf := fun _ =>
    [⟨"y.psc", some "https://raw.github.com/y.psc", "u"⟩]
  extractReqUrl := fun u => u

/-- C1: In `Application.run`, each downstream stage is invoked iff its
option is enabled and (`failed_count = 0` or `ignore_errors`); when the
option is enabled but failures exist and `ignore_errors` is unset, the
stage's warning is emitted instead. -/
theorem run_stage_gating (o : ProjectOptions) (s f p : Nat) :
    (RunEvent.tryAnonymize ∈ application_run_events o s f p ↔
      o.anonymize = true ∧ (f = 0 ∨ o.ignore_errors = true)) ∧
    (RunEvent.warnAnonymizeFailed f ∈ application_run_events o s f p ↔
      o.anonymize = true ∧ ¬(f = 0 ∨ o.ignore_errors = true)) ∧
    (RunEvent.tryPack ∈ application_run_events o s f p ↔
      o.package = true ∧ (f = 0 ∨ o.ignore_errors = true)) ∧
    (RunEvent.warnPackageFailed f ∈ application_run_events o s f p ↔
      o.package = true ∧ ¬(f = 0 ∨ o.ignore_errors = true)) ∧
    (RunEvent.tryZip ∈ application_run_events o s f p ↔
      o.zip = true ∧ (f = 0 ∨ o.ignore_errors = true)) ∧
    (RunEvent.warnZipFailed f ∈ application_run_events o s f p ↔
      o.zip = true ∧ ¬(f = 0 ∨ o.ignore_errors = true)) := by
  obtain ⟨a, pk, z, ig⟩ := o
  by_cases hf : f = 0 <;>
    cases a <;> cases pk <;> cases z <;> cases ig <;>
      by_cases hs : s > 0 <;>
        simp [application_run_events, hf, hs]

/-- C2 counterexample: when `success_count = 0` and `failed_count = 1 > 0`,
the aggregate counts and the average are not reported; the run logs
`No scripts were compiled.` instead. -/
theorem counts_not_reported_when_no_success :
    application_run_events ⟨false, false, false, false⟩ 0 1 5 =
      [RunEvent.warnAnonymizeDisabled, RunEvent.warnPackageDisabled,
       RunEvent.warnZipDisabled, RunEvent.reportNoScripts, RunEvent.reportDone] ∧
    RunEvent.reportCounts 0 1 5 ∉ application_run_events ⟨false, false, false, false⟩ 0 1 5 ∧
    RunEvent.averageCall 0 ∉ application_run_events ⟨false, false, false, false⟩ 0 1 5 := by
  decide

/-- C2 (amended): the aggregate counts and the average are reported iff
`success_count > 0`; in particular they are still reported when failures
exist, provided at least one unit succeeded. -/
theorem counts_reported_iff_success (o : ProjectOptions) (s f p : Nat) :
    (RunEvent.reportCounts s f p ∈ application_run_events o s f p ↔ 0 < s) ∧
    (RunEvent.averageCall s ∈ application_run_events o s f p ↔ 0 < s) := by
  obtain ⟨a, pk, z, ig⟩ := o
  by_cases hf : f = 0 <;>
    cases a <;> cases pk <;> cases z <;> cases ig <;>
      by_cases hs : s > 0 <;>
        simp [application_run_events, hf, hs, Nat.pos_iff_ne_zero]

/-- C4: both copies of `Application.run` call `TimeElapsed.average` only
under the `success_count > 0` guard, so the division-by-zero branch of
`average` is unreachable from these callers: any `averageCall n` event in
either run trace has `0 < n` (and `n` is the success count). -/
theorem average_guarded_by_success (o : ProjectOptions) (s f p n : Nat) :
    (RunEvent.averageCall n ∈ application_run_events o s f p ∨
     RunEvent.averageCall n ∈ main_run_events o s f p) → 0 < n ∧ n = s := by
  intro h
  obtain ⟨a, pk, z, ig⟩ := o
  rcases h with h | h <;>
    by_cases hf : f = 0 <;>
      revert h <;>
        cases a <;> cases pk <;> cases z <;> cases ig <;>
          by_cases hs : s > 0 <;>
            simp [application_run_events, main_run_events, hf, hs] <;>
              omega

/-- C4 witness: at a concrete run with three successes, the guard theorem
applies. -/
theorem average_guarded_by_success_witness : 0 < 3 ∧ 3 = 3 :=
  average_guarded_by_success ⟨false, false, false, false⟩ 3 0 7 3
    (Or.inl (by decide))

/-- C10: the two copies of the orchestration routine are equivalent in
their post-compile behaviour: for every option setting and every pair of
counts they produce the same event trace (hence the same downstream stage
invocations), and the counts-and-average report appears iff
`success_count > 0`. -/
theorem run_copies_equivalent (o : ProjectOptions) (s f p : Nat) :
    application_run_events o s f p = main_run_events o s f p ∧
    (RunEvent.reportCounts s f p ∈ main_run_events o s f p ↔ 0 < s) := by
  constructor
  · rfl
  · obtain ⟨a, pk, z, ig⟩ := o
    by_cases hf : f = 0 <;>
      cases a <;> cases pk <;> cases z <;> cases ig <;>
        by_cases hs : s > 0 <;>
          simp [main_run_events, hf, hs, Nat.pos_iff_ne_zero]

/-- C3: `get_worker_limit` returns the configured `worker_limit` whenever it
is positive; otherwise it returns the processor count; and when the
processor count is indeterminate (`None`) it returns 2. -/
theorem get_worker_limit_correct (w : Int) (c : Option Nat) :
    (0 < w → get_worker_limit w c = w) ∧
    (w ≤ 0 → c = none → get_worker_limit w c = 2) ∧
    (∀ n : Nat, w ≤ 0 → c = some n → get_worker_limit w c = n) := by
  refine ⟨fun hw => ?_, fun hw hc => ?_, fun n hw hc => ?_⟩
  · simp [get_worker_limit, hw]
  · simp [get_worker_limit, hc, show ¬w > 0 by omega]
  · simp [get_worker_limit, hc, show ¬w > 0 by omega]

/-- C3 witness: the three cases of `get_worker_limit_correct` at concrete
inputs. -/
theorem get_worker_limit_correct_witness :
    get_worker_limit 5 (some 8) = 5 ∧
    get_worker_limit (-1) none = 2 ∧
    get_worker_limit 0 (some 8) = 8 :=
  ⟨(get_worker_limit_correct 5 (some 8)).1 (by decide),
   (get_worker_limit_correct (-1) none).2.1 (by decide) rfl,
   (get_worker_limit_correct 0 (some 8)).2.2 8 (by decide) rfl⟩

/-- C6: with incremental build enabled, a discovered unit is in the
executable subset iff its output module is missing or its source timestamp
is strictly greater than the output timestamp; every unit whose output
timestamp is greater than or equal to its source timestamp is excluded. -/
theorem incremental_plan_correct (units : List SourceUnit) (u : SourceUnit) :
    (u ∈ plan_executable true units ↔
      u ∈ units ∧ (u.outputTime = none ∨
        ∃ t, u.outputTime = some t ∧ t < u.sourceTime)) ∧
    (∀ t, u.outputTime = some t → u.sourceTime ≤ t →
      u ∉ plan_executable true units) := by
  constructor
  · simp only [plan_executable, List.mem_filter, unit_executable, if_pos]
    constructor
    · rintro ⟨hu, hx⟩
      refine ⟨hu, ?_⟩
      cases ht : u.outputTime with
      | none => exact Or.inl rfl
      | some t =>
        right
        refine ⟨t, rfl, ?_⟩
        rw [ht] at hx
        simpa using hx
    · rintro ⟨hu, hx⟩
      refine ⟨hu, ?_⟩
      rcases hx with ht | ⟨t, ht, hlt⟩
      · simp [ht]
      · simp [ht, hlt]
  · intro t ht hle hmem
    simp only [plan_executable, List.mem_filter, unit_executable, if_pos,
      ht] at hmem
    obtain ⟨-, hx⟩ := hmem
    simp at hx
    omega

/-- C6 witness: a unit whose output is at least as new as its source is
excluded from the incremental plan. -/
theorem incremental_plan_correct_witness :
    (⟨"a.psc", 3, some 5⟩ : SourceUnit) ∉
      plan_executable true [⟨"a.psc", 3, some 5⟩] :=
  (incremental_plan_correct [⟨"a.psc", 3, some 5⟩] ⟨"a.psc", 3, some 5⟩).2
    5 rfl (by decide)

/-- C7: anonymization of a module header is idempotent — anonymizing twice
yields a byte-identical encoded file to anonymizing once, and anonymizing
an already-anonymized header is a no-op that succeeds. -/
theorem anonymize_idempotent (h : ModuleHeader) :
    anonymize_header (anonymize_header h) = anonymize_header h ∧
    encode_header (anonymize_header (anonymize_header h)) =
      encode_header (anonymize_header h) ∧
    (h.authorIdentity = "" → h.machineIdentity = "" →
      anonymize_header h = h) := by
  refine ⟨rfl, rfl, fun ha hm => ?_⟩
  cases h
  simp_all [anonymize_header]

/-- C7 witness: anonymizing an already-anonymized header at a concrete
input is a no-op. -/
theorem anonymize_idempotent_witness :
    anonymize_header ⟨0xFA57C0DE, 3, 9, "a.psc", "", "", 42, [1, 2, 3]⟩ =
      ⟨0xFA57C0DE, 3, 9, "a.psc", "", "", 42, [1, 2, 3]⟩ :=
  (anonymize_idempotent ⟨0xFA57C0DE, 3, 9, "a.psc", "", "", 42, [1, 2, 3]⟩).2.2
    rfl rfl

/-- Every request in a `_fetch_payloads` trace carries timeout 30. -/
theorem timeout_of_mem_fetch_payloads (env : RemoteEnv) :
    ∀ (fuel : Nat) (url : String) (r : NetRequest),
      r ∈ fetch_payloads_requests env fuel url → r.timeout = 30 := by
  intro fuel
  induction fuel with
  | zero =>
    intro url r h
    simp [fetch_payloads_requests] at h
  | succ n ih =>
    intro url r h
    simp only [fetch_payloads_requests, List.mem_cons] at h
    rcases h with rfl | h
    · rfl
    · by_cases hs : env.status url ≠ 200
      · rw [if_pos hs] at h
        simp at h
      · rw [if_neg hs] at h
        cases hnext : (env.bbPayloadOf url).next with
        | some nurl =>
          rw [hnext] at h
          exact ih nurl r h
        | none =>
          rw [hnext] at h
          simp at h

/-- Every request in a `BitbucketRemote.fetch_contents` trace carries
timeout 30. -/
theorem timeout_of_mem_bitbucket_fetch (env : RemoteEnv) :
    ∀ (fuel : Nat) (url : String) (r : NetRequest),
      r ∈ bitbucket_fetch_contents_requests env fuel url → r.timeout = 30 := by
  intro fuel
  induction fuel with
  | zero =>
    intro url r h
    simp [bitbucket_fetch_contents_requests] at h
  | succ n ih =>
    intro url r h
    simp only [bitbucket_fetch_contents_requests] at h
    rw [List.mem_append] at h
    rcases h with h | h
    · exact timeout_of_mem_fetch_payloads env _ _ r h
    · rw [List.mem_flatMap] at h
      obtain ⟨payload, hp, h⟩ := h
      rw [List.mem_flatMap] at h
      obtain ⟨obj, ho, h⟩ := h
      by_cases h1 : obj.otype = "commit_file"
      · rw [if_pos h1] at h
        by_cases h2 : endswith_ignorecase obj.href ".psc" = true
        · rw [if_pos h2] at h
          simp at h
          rw [h]
        · rw [if_neg h2] at h
          simp at h
      · rw [if_neg h1] at h
        by_cases h3 : obj.otype = "commit_directory"
        · rw [if_pos h3] at h
          exact ih obj.href r h
        · rw [if_neg h3] at h
          simp at h

/-- Every request in a `GitHubRemote.fetch_contents` trace carries
timeout 30. -/
theorem timeout_of_mem_github_fetch (env : RemoteEnv) :
    ∀ (fuel : Nat) (url : String) (r : NetRequest),
      r ∈ github_fetch_contents_requests env fuel url → r.timeout = 30 := by
  intro fuel
  induction fuel with
  | zero =>
    intro url r h
    simp [github_fetch_contents_requests] at h
  | succ n ih =>
    intro url r h
    simp only [github_fetch_contents_requests, List.mem_cons] at h
    rcases h with rfl | h
    · rfl
    · by_cases hs : env.status (env.extractReqUrl url) ≠ 200
      · rw [if_pos hs] at h
        simp at h
      · rw [if_neg hs] at h
        rw [List.mem_flatMap] at h
        obtain ⟨obj, ho, h⟩ := h
        split at h
        · exact ih _ r h
        · split at h
          · exact ih _ r h
          · split at h
            · simp at h
              rw [h]
            · simp at h

/-- C5: every network request issued by `BitbucketRemote._fetch_payloads`,
`BitbucketRemote.fetch_contents` and `GitHubRemote.fetch_contents` is
opened with a hard per-request timeout of exactly 30, for every
environment, recursion depth and starting URL. -/
theorem remote_requests_timeout (env : RemoteEnv) (fuel : Nat) (url : String)
    (r : NetRequest) :
    (r ∈ fetch_payloads_requests env fuel url → r.timeout = 30) ∧
    (r ∈ bitbucket_fetch_contents_requests env fuel url → r.timeout = 30) ∧
    (r ∈ github_fetch_contents_requests env fuel url → r.timeout = 30) :=
  ⟨timeout_of_mem_fetch_payloads env fuel url r,
   timeout_of_mem_bitbucket_fetch env fuel url r,
   timeout_of_mem_github_fetch env fuel url r⟩

/-- C5 witness: concrete requests of the three traces in the sample
environment all carry timeout 30. -/
theorem remote_requests_timeout_witness :
    ((⟨"s", 30⟩ : NetRequest).timeout = 30) ∧
    ((⟨"https://api.bitbucket.org/x.psc", 30⟩ : NetRequest).timeout = 30) ∧
    ((⟨"https://raw.github.com/y.psc", 30⟩ : NetRequest).timeout = 30) :=
  ⟨(remote_requests_timeout sampleRemoteEnv 1 "s" ⟨"s", 30⟩).1 (by decide),
   (remote_requests_timeout sampleRemoteEnv 1 "s"
      ⟨"https://api.bitbucket.org/x.psc", 30⟩).2.1 (by decide),
   (remote_requests_timeout sampleRemoteEnv 1 "s"
      ⟨"https://raw.github.com/y.psc", 30⟩).2.2 (by decide)⟩

/-- C8: `GenericRemote.fetch_contents` dispatches on the parsed URL's
netloc: a netloc ending in `github.com` raises `PermissionError` when the
access token is empty and otherwise delegates to `GitHubRemote`; a netloc
ending in `bitbucket.org` delegates to `BitbucketRemote`; any other netloc
raises `NotImplementedError`. -/
theorem generic_fetch_dispatch_correct (url tok : String) (r : ParseResult)
    (hp : urlparse url = Except.ok r) :
    (str_endswith r.netloc "github.com" = true → tok = "" →
      generic_fetch_contents tok url = FetchDispatch.permissionError) ∧
    (str_endswith r.netloc "github.com" = true → tok ≠ "" →
      generic_fetch_contents tok url = FetchDispatch.delegateGitHub) ∧
    (str_endswith r.netloc "github.com" = false →
      str_endswith r.netloc "bitbucket.org" = true →
      generic_fetch_contents tok url = FetchDispatch.delegateBitbucket) ∧
    (str_endswith r.netloc "github.com" = false →
      str_endswith r.netloc "bitbucket.org" = false →
      generic_fetch_contents tok url = FetchDispatch.notImplementedError) := by
  refine ⟨fun hg ht => ?_, fun hg ht => ?_, fun hg hb => ?_, fun hg hb => ?_⟩
  · subst ht
    simp [generic_fetch_contents, hp, hg, String.isEmpty_iff]
  · simp [generic_fetch_contents, hp, hg, String.isEmpty_iff, ht]
  · simp [generic_fetch_contents, hp, hg, hb]
  · simp [generic_fetch_contents, hp, hg, hb]

/-- C8 witness: the four dispatch outcomes at concrete URLs. -/
theorem generic_fetch_dispatch_correct_witness :
    generic_fetch_contents "" "https://github.com/o/r/tree/master/s" =
      FetchDispatch.permissionError ∧
    generic_fetch_contents "t" "https://github.com/o/r/tree/master/s" =
      FetchDispatch.delegateGitHub ∧
    generic_fetch_contents "" "https://bitbucket.org/o/r/src/m/s" =
      FetchDispatch.delegateBitbucket ∧
    generic_fetch_contents "" "https://example.com/x" =
      FetchDispatch.notImplementedError :=
  ⟨(generic_fetch_dispatch_correct "https://github.com/o/r/tree/master/s" ""
      ⟨"https", "github.com", "/o/r/tree/master/s", "", "", ""⟩
      (by decide)).1 (by decide) rfl,
   (generic_fetch_dispatch_correct "https://github.com/o/r/tree/master/s" "t"
      ⟨"https", "github.com", "/o/r/tree/master/s", "", "", ""⟩
      (by decide)).2.1 (by decide) (by decide),
   (generic_fetch_dispatch_correct "https://bitbucket.org/o/r/src/m/s" ""
      ⟨"https", "bitbucket.org", "/o/r/src/m/s", "", "", ""⟩
      (by decide)).2.2.1 (by decide) (by decide),
   (generic_fetch_dispatch_correct "https://example.com/x" ""
      ⟨"https", "example.com", "/x", "", "", ""⟩
      (by decide)).2.2.2 (by decide) (by decide)⟩

/-- C9: `validate_url` returns True exactly when scheme, netloc and path
are all non-empty — but on a netloc containing an unmatched square bracket
the underlying `urlparse` raises `ValueError("Invalid IPv6 URL")`, which
the `except HTTPError` clause does not catch; at the failing input
`"http://[a"` (whose path would be empty) the function raises instead of
returning False. -/
theorem validate_url_divergence :
    validate_url "http://[a" = Except.error "Invalid IPv6 URL" ∧
    validate_url "" = Except.ok false ∧
    validate_url "http://host" = Except.ok false ∧
    validate_url "https://example.com/x" = Except.ok true := by
  decide
